import Mathlib

/-!
Shallow embedding of the ID9 governed runtime
(`src/id9_governed_sdk/id9_governed_sdk/runtime.py`): the Duke stability
tracker, the GRADDS tier classifier, Ed25519-signed authority tokens, the
DIR execution gate, and the hash-linked receipt chain.

Modelling conventions:
* Python floats are modelled as rationals (ℚ); Python ints as ℤ.
* The nonce registry (a Python set of ints) is a `Finset ℤ`; `set.add` is
  `Finset.insert`.
* `sha256_dict` (SHA-256 of the canonical JSON serialization, an external
  primitive from `hashlib`/`json`) is an abstract digest parameter of the
  gate and of chain appends; the chain's own `verify` never recomputes it,
  exactly as in the source.
* The `cryptography` library's Ed25519 is modelled by its ideal
  functionality: a deterministic scheme where the signature of a message is
  the pair (signer's public key, message) and verification compares the
  stored signature against that pair.  The canonical JSON payload
  `json.dumps(to_dict, sort_keys=True)` is injective on the six token
  fields, so the payload is represented by the `TokenPayload` record
  itself.  A malformed, truncated, non-hex or empty signature string — every
  case in which the Python `verify` catches an exception and returns
  `False` — is modelled by `none` in the `signature` field.
* Python's `str.upper()` is modelled as mapping `Char.toUpper` over the
  characters of the string (ASCII case folding).
-/

namespace ID9

/-- Model of Python `str.upper()`: uppercase each character. -/
def pyUpper (s : String) : String := ⟨s.data.map Char.toUpper⟩

/-- Duke — system stability layer (`class Duke`).  Fields are the instance
attributes set in `Duke.__init__`. -/
structure Duke where
  stability_index : ℚ
  alpha : ℚ
  beta : ℚ
deriving Repr, DecidableEq

namespace Duke

/-- Initial Duke state (`__init__`): stability 1.0, alpha 10.0, beta 1.0. -/
def init : Duke := { stability_index := 1, alpha := 10, beta := 1 }

/-- Duke.evaluate: stability_index > 0.0. -/
def evaluate (d : Duke) : Bool := decide (0 < d.stability_index)

/-- Duke.degrade: stability_index -= amount; beta += 1.0. -/
def degrade (d : Duke) (amount : ℚ) : Duke :=
  { d with stability_index := d.stability_index - amount, beta := d.beta + 1 }

/-- Duke.recover: stability_index = min(1.0, stability_index + amount); alpha += 1.0. -/
def recover (d : Duke) (amount : ℚ) : Duke :=
  { d with stability_index := min 1 (d.stability_index + amount), alpha := d.alpha + 1 }

/-- Duke.bayesian_stability_posterior: alpha / (alpha + beta). -/
def bayesian_stability_posterior (d : Duke) : ℚ := d.alpha / (d.alpha + d.beta)

end Duke

/-- Digit extracted from a tier string, modelling Python `int(base_tier[1])`
(character at index 1, interpreted as a decimal digit). -/
def tierDigit (t : String) : ℕ := (t.data.getD 1 '0').toNat - 48

namespace GRADDS

/-- Local `base_tier` computation of GRADDS.evaluate:
`mapping.get(risk_class.upper(), "T0")` with the four-entry mapping. -/
def base_tier (risk_class : String) : String :=
  match pyUpper risk_class with
  | "LOW" => "T1"
  | "MEDIUM" => "T2"
  | "HIGH" => "T3"
  | "CRITICAL" => "T4"
  | _ => "T0"

/-- GRADDS.evaluate: base tier from the mapping; escalate one level, capped
at T4, when bayesian_confidence < 0.3 and the base tier is not T0. -/
def evaluate (risk_class : String) (bayesian_confidence : ℚ) : String :=
  let bt := base_tier risk_class
  if bayesian_confidence < 3/10 ∧ bt ≠ "T0" then
    "T" ++ toString (min 4 (tierDigit bt + 1))
  else bt

end GRADDS

/-- Canonical signing payload of an authority token: exactly the six fields
of `to_dict` (the dataclass fields with `signature` popped).  Since
`json.dumps(..., sort_keys=True)` is deterministic and injective on these
fields, the record stands for the canonical encoding. -/
structure TokenPayload where
  actor : String
  action_hash : String
  tier : String
  issued_at : ℤ
  expires_at : ℤ
  nonce : ℤ
deriving Repr, DecidableEq

/-- Ideal Ed25519 signature value: the deterministic signature of `message`
under the private key whose public key is `signer_pub`. -/
structure Ed25519Sig where
  signer_pub : ℕ
  message : TokenPayload
deriving Repr, DecidableEq

namespace Ed25519

/-- Private keys of the idealized scheme. -/
abbrev PrivateKey := ℕ

/-- Public keys of the idealized scheme. -/
abbrev PublicKey := ℕ

/-- Model of `private_key.public_key()`: the (bijective) private-to-public
correspondence, taken to be the identity on key indices. -/
def publicKey (k : PrivateKey) : PublicKey := k

/-- Ideal `private_key.sign(payload)`: deterministic signature recording the
signer's public key and the signed message. -/
def sign (k : PrivateKey) (m : TokenPayload) : Ed25519Sig :=
  { signer_pub := publicKey k, message := m }

/-- Ideal `public_key.verify(sig, payload)` as a boolean: the signature is
valid iff it is the signature of exactly this payload under the private key
matching this public key. -/
def verify (p : PublicKey) (m : TokenPayload) (s : Ed25519Sig) : Bool :=
  decide (s = { signer_pub := p, message := m })

end Ed25519

/-- AuthorityToken dataclass.  `signature` is `""` by default in the source;
here `none` stands for any string that does not decode to a valid signature
value (including the empty default). -/
structure AuthorityToken where
  actor : String
  action_hash : String
  tier : String
  issued_at : ℤ
  expires_at : ℤ
  nonce : ℤ
  signature : Option Ed25519Sig := none
deriving Repr, DecidableEq

namespace AuthorityToken

/-- AuthorityToken.to_dict: `asdict(self)` with the `signature` key popped —
the canonical signing payload. -/
def to_dict (t : AuthorityToken) : TokenPayload :=
  { actor := t.actor, action_hash := t.action_hash, tier := t.tier,
    issued_at := t.issued_at, expires_at := t.expires_at, nonce := t.nonce }

/-- AuthorityToken.sign: sets `signature` to the signature of the canonical
payload under `private_key` (pure state-passing rendition of the mutation). -/
def sign (t : AuthorityToken) (private_key : Ed25519.PrivateKey) : AuthorityToken :=
  { t with signature := some (Ed25519.sign private_key t.to_dict) }

/-- AuthorityToken.verify: recompute the canonical payload and verify the
stored signature, returning `false` on a malformed signature (the
`try`/`except` of the source) or a failed verification. -/
def verify (t : AuthorityToken) (public_key : Ed25519.PublicKey) : Bool :=
  match t.signature with
  | none => false
  | some s => Ed25519.verify public_key t.to_dict s

end AuthorityToken

namespace DIR

/-- DIR.execute: the execution gate.  `sha256_dict` is the digest used for
action fingerprints, `now` is `int(time.time())` at call time; the updated
nonce registry is returned alongside the `(committed, reason)` pair since the
source mutates the registry in place. -/
def execute {Action : Type} (sha256_dict : Action → String) (now : ℤ)
    (action : Action) (token : AuthorityToken) (nonce_registry : Finset ℤ)
    (public_key : Ed25519.PublicKey) : (Bool × String) × Finset ℤ :=
  if ¬ token.verify public_key then ((false, "Invalid signature"), nonce_registry)
  else if token.nonce ∈ nonce_registry then ((false, "Replay detected"), nonce_registry)
  else if now > token.expires_at then ((false, "Token expired"), nonce_registry)
  else if token.action_hash ≠ sha256_dict action then ((false, "Action mismatch"), nonce_registry)
  else ((true, "Execution committed"), insert token.nonce nonce_registry)

end DIR

/-- One stored entry of the receipt chain: the payload dict built by
`ReceiptChain.append` after the `hash` key is added. -/
structure ChainEntry (Rec : Type) where
  timestamp : ℚ
  record : Rec
  previous_hash : String
  hash : String
deriving Repr, DecidableEq

namespace ReceiptChain

/-- Hash of the last entry, or the GENESIS sentinel for an empty chain. -/
def lastHash {Rec : Type} (chain : List (ChainEntry Rec)) : String :=
  match chain.getLast? with
  | some e => e.hash
  | none => "GENESIS"

/-- ReceiptChain.append: link to the last entry's hash (or GENESIS), digest
the payload, store payload plus its hash.  `sha256_dict` digests the
pre-hash payload (timestamp, record, previous_hash); `now` is `time.time()`. -/
def append {Rec : Type} (sha256_dict : ℚ → Rec → String → String)
    (chain : List (ChainEntry Rec)) (now : ℚ) (record : Rec) : List (ChainEntry Rec) :=
  let previous_hash := lastHash chain
  let record_hash := sha256_dict now record previous_hash
  chain ++ [{ timestamp := now, record := record,
              previous_hash := previous_hash, hash := record_hash }]

/-- A chain built from empty by sequential appends of the given
(timestamp, record) pairs. -/
def build {Rec : Type} (sha256_dict : ℚ → Rec → String → String)
    (inputs : List (ℚ × Rec)) : List (ChainEntry Rec) :=
  inputs.foldl (fun c tr => append sha256_dict c tr.1 tr.2) []

/-- ReceiptChain.verify: for i in range(1, len), stored previous_hash of
entry i must equal the stored hash of entry i-1; short-circuits at the
first mismatch.  No digest is recomputed. -/
def verify {Rec : Type} : List (ChainEntry Rec) → Bool
  | b :: c :: rest => if c.previous_hash ≠ b.hash then false else verify (c :: rest)
  | _ => true

/-- Index (in the source loop's numbering, starting at `i`) of the first
broken link: `some j` means entries j-1 and j are the first pair at which
`verify`'s scan fails. -/
def firstBreakFrom {Rec : Type} : ℕ → List (ChainEntry Rec) → Option ℕ
  | i, b :: c :: rest =>
    if c.previous_hash ≠ b.hash then some i else firstBreakFrom (i + 1) (c :: rest)
  | _, _ => none

/-- First broken link of a chain: `some j` means the scan of `verify` first
fails comparing entry j against entry j-1 (the link between entries j-1
and j); `none` means every consecutive link holds. -/
def firstBreak {Rec : Type} (chain : List (ChainEntry Rec)) : Option ℕ :=
  firstBreakFrom 1 chain

/-- Tampering operator: replace entry `i` by `f` of itself (no-op when `i`
is out of range).  Models an attacker editing one stored entry in place. -/
def tamper {Rec : Type} (chain : List (ChainEntry Rec)) (i : ℕ)
    (f : ChainEntry Rec → ChainEntry Rec) : List (ChainEntry Rec) :=
  match chain.get? i with
  | some e => chain.set i (f e)
  | none => chain

/-- Alter the stored timestamp field of entry `i`. -/
def setTimestamp {Rec : Type} (chain : List (ChainEntry Rec)) (i : ℕ) (ts : ℚ) :
    List (ChainEntry Rec) :=
  tamper chain i (fun e => { e with timestamp := ts })

/-- Alter the stored record field of entry `i`. -/
def setRecord {Rec : Type} (chain : List (ChainEntry Rec)) (i : ℕ) (r : Rec) :
    List (ChainEntry Rec) :=
  tamper chain i (fun e => { e with record := r })

/-- Alter the stored previous_hash field of entry `i`. -/
def setPrevHash {Rec : Type} (chain : List (ChainEntry Rec)) (i : ℕ) (p : String) :
    List (ChainEntry Rec) :=
  tamper chain i (fun e => { e with previous_hash := p })

/-- Alter the stored hash field of entry `i`. -/
def setHash {Rec : Type} (chain : List (ChainEntry Rec)) (i : ℕ) (h : String) :
    List (ChainEntry Rec) :=
  tamper chain i (fun e => { e with hash := h })

/-- The link relation checked by `verify` between consecutive entries. -/
def Linked {Rec : Type} (a b : ChainEntry Rec) : Prop := b.previous_hash = a.hash

end ReceiptChain

/-- Concrete digest used for demonstration inputs of the gate: an injective
stand-in for `sha256_dict` on string-valued actions. -/
def demoDigest (a : String) : String := "sha256:" ++ a

/-- Concrete digest used for demonstration receipt chains over ℕ records. -/
def demoChainDigest (t : ℚ) (r : ℕ) (p : String) : String :=
  toString t.num ++ "|" ++ toString r ++ "|" ++ p

/-- Demonstration token body (before signing). -/
def demoToken : AuthorityToken :=
  { actor := "agent-1", action_hash := demoDigest "transfer", tier := "T2",
    issued_at := 0, expires_at := 300, nonce := 1 }

/-- Demonstration token signed with private key 7. -/
def demoSigned : AuthorityToken := demoToken.sign 7

/-- Demonstration token whose signature string is malformed (models the
byzantine `"0" * 128` signature or the unsigned default `""`). -/
def demoBadToken : AuthorityToken := { demoToken with signature := none }

/-- Demonstration token mutated after signing: the actor field is changed
while the signature is kept. -/
def demoMutated : AuthorityToken := { demoToken.sign 7 with actor := "mallory" }

/-- Demonstration receipt chain of two appends. -/
def demoChain2 : List (ChainEntry ℕ) :=
  ReceiptChain.build demoChainDigest [(0, 10), (1, 20)]

/-- Demonstration receipt chain of three appends. -/
def demoChain3 : List (ChainEntry ℕ) :=
  ReceiptChain.build demoChainDigest [(0, 10), (1, 20), (2, 30)]

namespace ReceiptChain

/-- Characterisation of `verify` as the adjacent-link chain predicate. -/
theorem verify_iff_chain' {Rec : Type} :
    ∀ c : List (ChainEntry Rec), verify c = true ↔ List.Chain' Linked c
  | [] => by simp [verify]
  | [a] => by simp [verify]
  | a :: b :: rest => by
    rw [verify]
    by_cases h : b.previous_hash = a.hash
    · simp only [h, ne_eq, not_true_eq_false, if_false, List.chain'_cons,
        verify_iff_chain' (b :: rest), Linked, true_and, h]
    · simp [h, List.chain'_cons, Linked]

/-- Appending a record preserves the link invariant, because the new entry's
previous_hash is read from the last entry's stored hash. -/
theorem chain'_append_record {Rec : Type} (D : ℚ → Rec → String → String)
    (c : List (ChainEntry Rec)) (now : ℚ) (r : Rec)
    (h : List.Chain' Linked c) : List.Chain' Linked (append D c now r) := by
  unfold append
  refine List.Chain'.append h (List.chain'_singleton _) ?_
  intro x hx y hy
  simp only [List.head?_cons, Option.mem_def, Option.some.injEq] at hy
  subst hy
  simp only [Linked, lastHash]
  rw [Option.mem_def] at hx
  rw [hx]

/-- Every chain built by sequential appends satisfies the link invariant. -/
theorem chain'_build {Rec : Type} (D : ℚ → Rec → String → String)
    (inputs : List (ℚ × Rec)) : List.Chain' Linked (build D inputs) := by
  suffices h : ∀ (l : List (ℚ × Rec)) (c : List (ChainEntry Rec)),
      List.Chain' Linked c →
      List.Chain' Linked (l.foldl (fun c tr => append D c tr.1 tr.2) c) by
    exact h inputs [] (by simp)
  intro l
  induction l with
  | nil => intro c hc; simpa using hc
  | cons hd tl ih =>
    intro c hc
    exact ih _ (chain'_append_record D c hd.1 hd.2 hc)

/-- Extract one adjacent link from the chain predicate, by position. -/
theorem link_of_chain' {Rec : Type} {c : List (ChainEntry Rec)}
    (hc : List.Chain' Linked c) {j : ℕ} {a b : ChainEntry Rec}
    (ha : c.get? j = some a) (hb : c.get? (j + 1) = some b) :
    b.previous_hash = a.hash := by
  rw [List.chain'_iff_get] at hc
  obtain ⟨hja, ha⟩ := List.get?_eq_some.mp ha
  obtain ⟨hjb, hb⟩ := List.get?_eq_some.mp hb
  have := hc j (by omega)
  rw [ha, hb] at this
  exact this

/-- A single broken adjacent link makes `verify` return false. -/
theorem verify_eq_false_of_break {Rec : Type} (c : List (ChainEntry Rec)) (m : ℕ)
    (a b : ChainEntry Rec) (ha : c.get? m = some a) (hb : c.get? (m + 1) = some b)
    (hbrk : b.previous_hash ≠ a.hash) : verify c = false := by
  cases hv : verify c with
  | false => rfl
  | true =>
    exact absurd (link_of_chain' ((verify_iff_chain' c).mp hv) ha hb) hbrk

/-- If every adjacent link (read positionally) holds, `verify` returns true. -/
theorem verify_eq_true_of_chain' {Rec : Type} {c : List (ChainEntry Rec)}
    (hc : ∀ (j : ℕ) (a b : ChainEntry Rec), c.get? j = some a →
      c.get? (j + 1) = some b → b.previous_hash = a.hash) : verify c = true := by
  rw [verify_iff_chain', List.chain'_iff_get]
  intro i h
  exact hc i _ _ (List.get?_eq_get (by omega)) (List.get?_eq_get (by omega))

/-- Positional description of a tampered chain. -/
theorem get?_tamper {Rec : Type} (c : List (ChainEntry Rec)) (i : ℕ)
    (f : ChainEntry Rec → ChainEntry Rec) (j : ℕ) :
    (tamper c i f).get? j = if i = j then (c.get? i).map f else c.get? j := by
  unfold tamper
  cases h : c.get? i with
  | none =>
    have hlen : c.length ≤ i := List.get?_eq_none.mp h
    by_cases hij : i = j
    · subst hij; simp [h, hlen]
    · simp [hij]
  | some e =>
    by_cases hij : i = j
    · subst hij
      rw [if_pos rfl, List.get?_set_eq, h]
      rfl
    · rw [if_neg hij, List.get?_set_ne _ _ hij]

/-- The scan of `verify` reports the first broken link: if links 1..m-1 hold
and link m is broken, the scan started at counter k stops at k + m. -/
theorem firstBreakFrom_eq {Rec : Type} :
    ∀ (m : ℕ) (c : List (ChainEntry Rec)) (k : ℕ)
      (hlink : ∀ j, j < m → ∀ a b : ChainEntry Rec, c.get? j = some a →
        c.get? (j + 1) = some b → b.previous_hash = a.hash)
      (a b : ChainEntry Rec) (ha : c.get? m = some a) (hb : c.get? (m + 1) = some b)
      (hbrk : b.previous_hash ≠ a.hash),
      firstBreakFrom k c = some (k + m)
  | 0, c, k, _hlink, a, b, ha, hb, hbrk => by
    match c, ha, hb with
    | x :: y :: rest, ha, hb =>
      simp only [List.get?_cons_succ, List.get?] at ha hb
      obtain rfl : x = a := by injection ha
      obtain rfl : y = b := by injection hb
      simp [firstBreakFrom, hbrk]
  | m + 1, c, k, hlink, a, b, ha, hb, hbrk => by
    match c, ha, hb with
    | x :: y :: rest, ha, hb =>
      have h0 : y.previous_hash = x.hash := by
        refine hlink 0 (by omega) x y rfl rfl
      rw [firstBreakFrom, if_neg (by simpa using h0)]
      have := firstBreakFrom_eq m (y :: rest) (k + 1)
        (fun j hj a2 b2 ha2 hb2 => hlink (j + 1) (by omega) a2 b2
          (by simpa using ha2) (by simpa using hb2))
        a b (by simpa using ha) (by simpa using hb) hbrk
      rw [this]
      congr 1
      omega

/-- The scan of `verify` reports no break exactly when `verify` succeeds. -/
theorem firstBreakFrom_eq_none_iff {Rec : Type} :
    ∀ (c : List (ChainEntry Rec)) (k : ℕ),
      firstBreakFrom k c = none ↔ verify c = true
  | [], _ => by simp [firstBreakFrom, verify]
  | [a], _ => by simp [firstBreakFrom, verify]
  | a :: b :: rest, k => by
    rw [firstBreakFrom, verify]
    by_cases h : b.previous_hash = a.hash
    · simp only [h, ne_eq, not_true_eq_false, if_false]
      exact firstBreakFrom_eq_none_iff (b :: rest) (k + 1)
    · simp [h]

/-- A chain has no first break exactly when `verify` succeeds. -/
theorem firstBreak_eq_none_iff {Rec : Type} (c : List (ChainEntry Rec)) :
    firstBreak c = none ↔ verify c = true :=
  firstBreakFrom_eq_none_iff c 1

/-- Tampering that preserves both hash fields of the edited entry leaves
`verify` true on a well-linked chain (the scan reads only those fields). -/
theorem verify_tamper_preserve {Rec : Type} (c : List (ChainEntry Rec)) (i : ℕ)
    (f : ChainEntry Rec → ChainEntry Rec)
    (hf : ∀ e, (f e).previous_hash = e.previous_hash ∧ (f e).hash = e.hash)
    (hc : List.Chain' Linked c) : verify (tamper c i f) = true := by
  apply verify_eq_true_of_chain'
  intro j a b ha hb
  rw [get?_tamper] at ha hb
  by_cases hij : i = j
  · rw [if_pos hij] at ha
    rw [if_neg (by omega)] at hb
    obtain ⟨a0, ha0, rfl⟩ := Option.map_eq_some'.mp ha
    rw [(hf a0).2]
    exact link_of_chain' hc (hij ▸ ha0) hb
  · rw [if_neg hij] at ha
    by_cases hij1 : i = j + 1
    · rw [if_pos hij1] at hb
      obtain ⟨b0, hb0, rfl⟩ := Option.map_eq_some'.mp hb
      rw [(hf b0).1]
      exact link_of_chain' hc ha (hij1 ▸ hb0)
    · rw [if_neg hij1] at hb
      exact link_of_chain' hc ha hb

/-- Tampering that preserves the previous_hash field goes undetected when it
edits the last entry (or beyond): no later entry reads the altered hash. -/
theorem verify_tamper_last {Rec : Type} (c : List (ChainEntry Rec)) (i : ℕ)
    (f : ChainEntry Rec → ChainEntry Rec)
    (hf : ∀ e, (f e).previous_hash = e.previous_hash)
    (hi : c.length ≤ i + 1)
    (hc : List.Chain' Linked c) : verify (tamper c i f) = true := by
  apply verify_eq_true_of_chain'
  intro j a b ha hb
  rw [get?_tamper] at ha hb
  by_cases hij : i = j
  · rw [if_neg (by omega)] at hb
    have hnone : c.get? (j + 1) = none := List.get?_eq_none.mpr (by omega)
    rw [hnone] at hb
    exact absurd hb (by simp)
  · rw [if_neg hij] at ha
    by_cases hij1 : i = j + 1
    · rw [if_pos hij1] at hb
      obtain ⟨b0, hb0, rfl⟩ := Option.map_eq_some'.mp hb
      rw [hf b0]
      exact link_of_chain' hc ha (hij1 ▸ hb0)
    · rw [if_neg hij1] at hb
      exact link_of_chain' hc ha hb

/-- Tampering that preserves the hash field goes undetected when it edits
entry 0: no link compares entry 0's previous_hash (GENESIS is not checked). -/
theorem verify_tamper_head {Rec : Type} (c : List (ChainEntry Rec))
    (f : ChainEntry Rec → ChainEntry Rec)
    (hf : ∀ e, (f e).hash = e.hash)
    (hc : List.Chain' Linked c) : verify (tamper c 0 f) = true := by
  apply verify_eq_true_of_chain'
  intro j a b ha hb
  rw [get?_tamper] at ha hb
  rw [if_neg (by omega)] at hb
  by_cases h0 : 0 = j
  · rw [if_pos h0] at ha
    obtain ⟨a0, ha0, rfl⟩ := Option.map_eq_some'.mp ha
    rw [hf a0]
    exact link_of_chain' hc (h0 ▸ ha0) hb
  · rw [if_neg h0] at ha
    exact link_of_chain' hc ha hb

/-- Altering the stored hash of entry i (to a new value, with entry i not
last) is first detected at the link between entries i and i+1. -/
theorem setHash_break {Rec : Type} (c : List (ChainEntry Rec))
    (hc : List.Chain' Linked c) (i : ℕ) (hi1 : i + 1 < c.length) (h2 : String)
    (hne : h2 ≠ (c.get ⟨i, by omega⟩).hash) :
    firstBreak (setHash c i h2) = some (i + 1)
    ∧ verify (setHash c i h2) = false := by
  set e := c.get ⟨i, by omega⟩ with he
  have hgi : c.get? i = some e := List.get?_eq_get (by omega)
  have hgi1 : c.get? (i + 1) = some (c.get ⟨i + 1, hi1⟩) := List.get?_eq_get hi1
  have hlink_i : (c.get ⟨i + 1, hi1⟩).previous_hash = e.hash :=
    link_of_chain' hc hgi hgi1
  have hga : (setHash c i h2).get? i = some { e with hash := h2 } := by
    rw [setHash, get?_tamper, if_pos rfl, hgi]; rfl
  have hgb : (setHash c i h2).get? (i + 1) = some (c.get ⟨i + 1, hi1⟩) := by
    rw [setHash, get?_tamper, if_neg (by omega), hgi1]
  have hbrk : (c.get ⟨i + 1, hi1⟩).previous_hash
      ≠ ({ e with hash := h2 } : ChainEntry Rec).hash := by
    show (c.get ⟨i + 1, hi1⟩).previous_hash ≠ h2
    rw [hlink_i]
    exact fun hh => hne hh.symm
  have hlinks : ∀ j, j < i → ∀ a b : ChainEntry Rec,
      (setHash c i h2).get? j = some a → (setHash c i h2).get? (j + 1) = some b →
      b.previous_hash = a.hash := by
    intro j hj a b ha hb
    rw [setHash, get?_tamper, if_neg (by omega)] at ha
    rw [setHash, get?_tamper] at hb
    by_cases hji : i = j + 1
    · rw [if_pos hji, hgi] at hb
      simp only [Option.map_some'] at hb
      obtain rfl : ({ e with hash := h2 } : ChainEntry Rec) = b := by injection hb
      show e.previous_hash = a.hash
      exact link_of_chain' hc ha (hji ▸ hgi)
    · rw [if_neg hji] at hb
      exact link_of_chain' hc ha hb
  constructor
  · have := firstBreakFrom_eq i (setHash c i h2) 1 hlinks _ _ hga hgb hbrk
    rw [firstBreak, this]
    congr 1
    omega
  · exact verify_eq_false_of_break _ i _ _ hga hgb hbrk

/-- Altering the stored previous_hash of entry i (to a new value, i ≥ 1) is
first detected at the link between entries i-1 and i. -/
theorem setPrevHash_break {Rec : Type} (c : List (ChainEntry Rec))
    (hc : List.Chain' Linked c) (i : ℕ) (hi : i < c.length) (h0 : 0 < i) (p2 : String)
    (hne : p2 ≠ (c.get ⟨i, hi⟩).previous_hash) :
    firstBreak (setPrevHash c i p2) = some i
    ∧ verify (setPrevHash c i p2) = false := by
  obtain ⟨m, rfl⟩ : ∃ m, i = m + 1 := ⟨i - 1, by omega⟩
  set e := c.get ⟨m + 1, hi⟩ with he
  have hgm : c.get? m = some (c.get ⟨m, by omega⟩) := List.get?_eq_get (by omega)
  have hgi : c.get? (m + 1) = some e := List.get?_eq_get hi
  have hlink_m : e.previous_hash = (c.get ⟨m, by omega⟩).hash :=
    link_of_chain' hc hgm hgi
  have hga : (setPrevHash c (m + 1) p2).get? m = some (c.get ⟨m, by omega⟩) := by
    rw [setPrevHash, get?_tamper, if_neg (by omega), hgm]
  have hgb : (setPrevHash c (m + 1) p2).get? (m + 1)
      = some { e with previous_hash := p2 } := by
    rw [setPrevHash, get?_tamper, if_pos rfl, hgi]; rfl
  have hbrk : ({ e with previous_hash := p2 } : ChainEntry Rec).previous_hash
      ≠ (c.get ⟨m, by omega⟩).hash := by
    show p2 ≠ _
    rw [← hlink_m]
    exact hne
  have hlinks : ∀ j, j < m → ∀ a b : ChainEntry Rec,
      (setPrevHash c (m + 1) p2).get? j = some a →
      (setPrevHash c (m + 1) p2).get? (j + 1) = some b →
      b.previous_hash = a.hash := by
    intro j hj a b ha hb
    rw [setPrevHash, get?_tamper, if_neg (by omega)] at ha
    rw [setPrevHash, get?_tamper, if_neg (by omega)] at hb
    exact link_of_chain' hc ha hb
  constructor
  · have := firstBreakFrom_eq m (setPrevHash c (m + 1) p2) 1 hlinks _ _ hga hgb hbrk
    rw [firstBreak, this]
    congr 1
    omega
  · exact verify_eq_false_of_break _ m _ _ hga hgb hbrk

end ReceiptChain

/-- Signing then verifying with the matching public key succeeds. -/
theorem AuthorityToken.verify_sign (t : AuthorityToken) (k : Ed25519.PrivateKey) :
    (t.sign k).verify (Ed25519.publicKey k) = true := by
  simp [AuthorityToken.verify, AuthorityToken.sign, Ed25519.verify, Ed25519.sign,
    AuthorityToken.to_dict]

/-- GRADDS.evaluate depends on its risk class only through `upper()`. -/
theorem GRADDS.evaluate_of_pyUpper_eq (s t : String) (conf : ℚ)
    (h : pyUpper s = pyUpper t) : GRADDS.evaluate s conf = GRADDS.evaluate t conf := by
  unfold GRADDS.evaluate GRADDS.base_tier
  rw [h]

/-- The base tier is T0 exactly when the uppercased risk class is none of
the four mapping keys. -/
theorem GRADDS.base_tier_eq_T0_iff (s : String) :
    GRADDS.base_tier s = "T0" ↔
      (pyUpper s ≠ "LOW" ∧ pyUpper s ≠ "MEDIUM" ∧ pyUpper s ≠ "HIGH"
        ∧ pyUpper s ≠ "CRITICAL") := by
  unfold GRADDS.base_tier
  split <;> simp_all

/-- The base tier is always one of the five tier strings. -/
theorem GRADDS.base_tier_cases (s : String) :
    GRADDS.base_tier s = "T0" ∨ GRADDS.base_tier s = "T1" ∨ GRADDS.base_tier s = "T2"
      ∨ GRADDS.base_tier s = "T3" ∨ GRADDS.base_tier s = "T4" := by
  unfold GRADDS.base_tier
  split <;> decide

/-- Escalation never produces T0, so evaluate returns T0 exactly when the
base tier is T0. -/
theorem GRADDS.evaluate_eq_T0_iff (s : String) (conf : ℚ) :
    GRADDS.evaluate s conf = "T0" ↔ GRADDS.base_tier s = "T0" := by
  unfold GRADDS.evaluate
  by_cases hb : GRADDS.base_tier s = "T0"
  · simp [hb]
  · by_cases hcf : conf < 3/10
    · rw [if_pos ⟨hcf, hb⟩]
      rcases GRADDS.base_tier_cases s with h | h | h | h | h <;>
        first
          | exact absurd h hb
          | (rw [h]; decide)
    · rw [if_neg (fun hh => hcf hh.1)]

/-- C8: for every stability state and every amount, recover sets
stability_index to min(1.0, previous + amount), increments alpha by 1
(leaving beta unchanged), and in particular never leaves stability_index
above 1.0. -/
theorem C8_recover_bounds (d : Duke) (amount : ℚ) :
    (d.recover amount).stability_index = min 1 (d.stability_index + amount)
    ∧ (d.recover amount).alpha = d.alpha + 1
    ∧ (d.recover amount).beta = d.beta
    ∧ (d.recover amount).stability_index ≤ 1 :=
  ⟨rfl, rfl, rfl, min_le_left _ _⟩

/-- C9: with positive alpha and beta, every degrade strictly decreases the
Bayesian posterior alpha/(alpha+beta) and every recover strictly increases
it, independently of the amount arguments. -/
theorem C9_posterior_shift (d : Duke) (a1 a2 : ℚ)
    (ha : 0 < d.alpha) (hb : 0 < d.beta) :
    (d.degrade a1).bayesian_stability_posterior < d.bayesian_stability_posterior
    ∧ d.bayesian_stability_posterior < (d.recover a2).bayesian_stability_posterior := by
  unfold Duke.degrade Duke.recover Duke.bayesian_stability_posterior
  dsimp only
  constructor
  · exact div_lt_div_of_pos_left ha (by linarith) (by linarith)
  · rw [div_lt_div_iff (by linarith) (by linarith)]
    nlinarith

/-- Witness for C9 at the initial Duke state (alpha 10, beta 1). -/
theorem C9_posterior_witness :
    (Duke.init.degrade (1/10)).bayesian_stability_posterior
      < Duke.init.bayesian_stability_posterior
    ∧ Duke.init.bayesian_stability_posterior
      < (Duke.init.recover (1/10)).bayesian_stability_posterior :=
  C9_posterior_shift Duke.init (1/10) (1/10) (by norm_num [Duke.init])
    (by norm_num [Duke.init])

/-- C7: for confidence at least 0.3 the four risk classes map to their base
tiers T1..T4; for confidence below 0.3 each is escalated one level capped
at T4 (CRITICAL stays T4); an unrecognized risk class yields T0 regardless
of confidence and is never escalated. -/
theorem C7_tier_mapping (conf : ℚ) :
    ((3/10 : ℚ) ≤ conf →
      GRADDS.evaluate "LOW" conf = "T1" ∧ GRADDS.evaluate "MEDIUM" conf = "T2"
      ∧ GRADDS.evaluate "HIGH" conf = "T3" ∧ GRADDS.evaluate "CRITICAL" conf = "T4")
    ∧ (conf < 3/10 →
      GRADDS.evaluate "LOW" conf = "T2" ∧ GRADDS.evaluate "MEDIUM" conf = "T3"
      ∧ GRADDS.evaluate "HIGH" conf = "T4" ∧ GRADDS.evaluate "CRITICAL" conf = "T4")
    ∧ (∀ rc : String,
      pyUpper rc ≠ "LOW" → pyUpper rc ≠ "MEDIUM" → pyUpper rc ≠ "HIGH" →
      pyUpper rc ≠ "CRITICAL" → GRADDS.evaluate rc conf = "T0") := by
  refine ⟨?_, ?_, ?_⟩
  · intro h
    have hnf : ¬ conf < 3/10 := not_lt.mpr h
    refine ⟨?_, ?_, ?_, ?_⟩ <;>
      · simp only [GRADDS.evaluate]
        rw [if_neg (fun hh => hnf hh.1)]
        decide
  · intro h
    refine ⟨?_, ?_, ?_, ?_⟩ <;>
      · simp only [GRADDS.evaluate]
        rw [if_pos ⟨h, by decide⟩]
        decide
  · intro rc h1 h2 h3 h4
    have hb : GRADDS.base_tier rc = "T0" :=
      (GRADDS.base_tier_eq_T0_iff rc).mpr ⟨h1, h2, h3, h4⟩
    rw [(GRADDS.evaluate_eq_T0_iff rc conf)]
    exact hb

/-- Witness for C7 at confidence 1/5 (below 0.3) and an unrecognized class. -/
theorem C7_tier_witness :
    GRADDS.evaluate "LOW" (1/5) = "T2" ∧ GRADDS.evaluate "CRITICAL" (1/5) = "T4"
    ∧ GRADDS.evaluate "banana" (1/5) = "T0" := by
  have h := C7_tier_mapping (1/5)
  exact ⟨(h.2.1 (by norm_num)).1, (h.2.1 (by norm_num)).2.2.2,
    h.2.2 "banana" (by decide) (by decide) (by decide) (by decide)⟩

/-- C10: GRADDS.evaluate treats the risk class case-insensitively — it
depends on the class only through its uppercased form, so "low", "Low" and
"LOW" (and likewise for the other classes) classify identically for every
confidence — and exactly the strings whose uppercased form is none of LOW,
MEDIUM, HIGH, CRITICAL map to T0. -/
theorem C10_case_insensitive :
    (∀ (s t : String) (conf : ℚ), pyUpper s = pyUpper t →
      GRADDS.evaluate s conf = GRADDS.evaluate t conf)
    ∧ (∀ conf : ℚ,
      (GRADDS.evaluate "low" conf = GRADDS.evaluate "LOW" conf
        ∧ GRADDS.evaluate "Low" conf = GRADDS.evaluate "LOW" conf)
      ∧ (GRADDS.evaluate "medium" conf = GRADDS.evaluate "MEDIUM" conf
        ∧ GRADDS.evaluate "Medium" conf = GRADDS.evaluate "MEDIUM" conf)
      ∧ (GRADDS.evaluate "high" conf = GRADDS.evaluate "HIGH" conf
        ∧ GRADDS.evaluate "High" conf = GRADDS.evaluate "HIGH" conf)
      ∧ (GRADDS.evaluate "critical" conf = GRADDS.evaluate "CRITICAL" conf
        ∧ GRADDS.evaluate "Critical" conf = GRADDS.evaluate "CRITICAL" conf))
    ∧ (∀ (s : String) (conf : ℚ), GRADDS.evaluate s conf = "T0" ↔
      (pyUpper s ≠ "LOW" ∧ pyUpper s ≠ "MEDIUM" ∧ pyUpper s ≠ "HIGH"
        ∧ pyUpper s ≠ "CRITICAL")) := by
  refine ⟨GRADDS.evaluate_of_pyUpper_eq, ?_, ?_⟩
  · intro conf
    refine ⟨⟨?_, ?_⟩, ⟨?_, ?_⟩, ⟨?_, ?_⟩, ⟨?_, ?_⟩⟩ <;>
      exact GRADDS.evaluate_of_pyUpper_eq _ _ conf (by decide)
  · intro s conf
    rw [GRADDS.evaluate_eq_T0_iff]
    exact GRADDS.base_tier_eq_T0_iff s

/-- Witness for C10 at an input with a hypothesis discharged concretely. -/
theorem C10_case_witness :
    GRADDS.evaluate "cRiTiCaL" (1/2) = GRADDS.evaluate "CRITICAL" (1/2) :=
  C10_case_insensitive.1 "cRiTiCaL" "CRITICAL" (1/2) (by decide)

/-- C3: a token signed with private key K verifies under public(K); the
payload signed is exactly the six fields excluding the signature (signing
leaves to_dict unchanged); and any token carrying that signature whose
payload fields have been mutated (so its to_dict differs) fails to verify. -/
theorem C3_signature_integrity (k : Ed25519.PrivateKey) (t t2 : AuthorityToken)
    (hsig : t2.signature = (t.sign k).signature)
    (hmut : t2.to_dict ≠ t.to_dict) :
    (t.sign k).verify (Ed25519.publicKey k) = true
    ∧ (t.sign k).to_dict = t.to_dict
    ∧ t2.verify (Ed25519.publicKey k) = false := by
  refine ⟨AuthorityToken.verify_sign t k, rfl, ?_⟩
  unfold AuthorityToken.verify
  rw [hsig]
  show Ed25519.verify (Ed25519.publicKey k) t2.to_dict (Ed25519.sign k t.to_dict) = false
  unfold Ed25519.verify Ed25519.sign
  simp only [decide_eq_false_iff_not, Ed25519Sig.mk.injEq, not_and]
  intro _ hmsg
  exact hmut (hmsg ▸ rfl)

/-- Witness for C3: concrete signed token and a concrete actor mutation. -/
theorem C3_signature_witness :
    (demoToken.sign 7).verify (Ed25519.publicKey 7) = true
    ∧ demoMutated.verify (Ed25519.publicKey 7) = false := by
  have h := C3_signature_integrity 7 demoToken demoMutated rfl (by decide)
  exact ⟨h.1, h.2.2⟩

/-- C6: AuthorityToken.verify is a total boolean function — on a malformed
(undecodable, e.g. empty or non-hex) signature it returns false rather than
raising, and under a mismatched public key a signed token also verifies
false. -/
theorem C6_verify_total (t : AuthorityToken) (pk : Ed25519.PublicKey)
    (k : Ed25519.PrivateKey) :
    (t.signature = none → t.verify pk = false)
    ∧ (pk ≠ Ed25519.publicKey k → (t.sign k).verify pk = false) := by
  constructor
  · intro h
    unfold AuthorityToken.verify
    rw [h]
  · intro h
    unfold AuthorityToken.verify AuthorityToken.sign
    simp only [Ed25519.verify, Ed25519.sign, decide_eq_false_iff_not,
      Ed25519Sig.mk.injEq, not_and]
    intro hkey
    exact absurd hkey.symm h

/-- Witness for C6: the malformed demonstration token and a wrong key. -/
theorem C6_verify_witness :
    demoBadToken.verify 1 = false ∧ (demoToken.sign 7).verify 1 = false := by
  have h := C6_verify_total demoBadToken 1 7
  have h2 := C6_verify_total demoToken 1 7
  exact ⟨h.1 rfl, h2.2 (by decide)⟩

/-- Counterexample to C1 as stated: at a concrete bad-signature input the
gate rejects with reason "Invalid signature" (capitalised, as the source
writes it), which is not the claim's reason string "invalid signature". -/
theorem C1_reason_case_cex :
    (DIR.execute demoDigest 10 "transfer" demoBadToken ∅ (Ed25519.publicKey 7)).1.1 = false
    ∧ (DIR.execute demoDigest 10 "transfer" demoBadToken ∅ (Ed25519.publicKey 7)).1.2
        = "Invalid signature"
    ∧ (DIR.execute demoDigest 10 "transfer" demoBadToken ∅ (Ed25519.publicKey 7)).1.2
        ≠ "invalid signature" := by decide

/-- C1 (amended): DIR.execute checks signature, replay, expiry, action hash
in that order, short-circuits at the first failing check with committed =
false and that check's distinct reason — spelled "Invalid signature",
"Replay detected", "Token expired", "Action mismatch" in the source, with a
capital initial unlike the claim's quoted strings — and otherwise inserts
the nonce and returns committed = true with "Execution committed". -/
theorem C1_gate_sequence_amended {Action : Type} (sha256_dict : Action → String)
    (now : ℤ) (action : Action) (token : AuthorityToken)
    (reg : Finset ℤ) (pk : Ed25519.PublicKey) :
    (token.verify pk = false →
      DIR.execute sha256_dict now action token reg pk
        = ((false, "Invalid signature"), reg))
    ∧ (token.verify pk = true → token.nonce ∈ reg →
      DIR.execute sha256_dict now action token reg pk
        = ((false, "Replay detected"), reg))
    ∧ (token.verify pk = true → token.nonce ∉ reg → now > token.expires_at →
      DIR.execute sha256_dict now action token reg pk
        = ((false, "Token expired"), reg))
    ∧ (token.verify pk = true → token.nonce ∉ reg → ¬ now > token.expires_at →
      token.action_hash ≠ sha256_dict action →
      DIR.execute sha256_dict now action token reg pk
        = ((false, "Action mismatch"), reg))
    ∧ (token.verify pk = true → token.nonce ∉ reg → ¬ now > token.expires_at →
      token.action_hash = sha256_dict action →
      DIR.execute sha256_dict now action token reg pk
        = ((true, "Execution committed"), insert token.nonce reg)) := by
  refine ⟨?_, ?_, ?_, ?_, ?_⟩
  · intro h1
    simp [DIR.execute, h1]
  · intro h1 h2
    simp [DIR.execute, h1, h2]
  · intro h1 h2 h3
    simp [DIR.execute, h1, h2, h3]
  · intro h1 h2 h3 h4
    simp [DIR.execute, h1, h2, h3, h4]
  · intro h1 h2 h3 h4
    simp [DIR.execute, h1, h2, h3, h4]

/-- Witness for C1 (amended) on the committed path at a concrete input. -/
theorem C1_gate_sequence_witness :
    DIR.execute demoDigest 10 "transfer" demoSigned ∅ (Ed25519.publicKey 7)
      = ((true, "Execution committed"), insert (1 : ℤ) ∅) :=
  (C1_gate_sequence_amended demoDigest 10 "transfer" demoSigned ∅
    (Ed25519.publicKey 7)).2.2.2.2 (by decide) (by decide) (by decide) (by decide)

/-- C5: whenever DIR.execute returns committed = false the nonce registry is
returned unchanged; the registry changes only on the committed path, where
exactly the token's nonce — previously absent — is inserted. -/
theorem C5_registry_effects {Action : Type} (sha256_dict : Action → String)
    (now : ℤ) (action : Action) (token : AuthorityToken) (reg : Finset ℤ)
    (pk : Ed25519.PublicKey) :
    ((DIR.execute sha256_dict now action token reg pk).1.1 = false →
      (DIR.execute sha256_dict now action token reg pk).2 = reg)
    ∧ ((DIR.execute sha256_dict now action token reg pk).1.1 = true →
      (DIR.execute sha256_dict now action token reg pk).2 = insert token.nonce reg
      ∧ token.nonce ∉ reg) := by
  by_cases hv : token.verify pk = true
  · by_cases hn : token.nonce ∈ reg
    · simp [DIR.execute, hv, hn]
    · by_cases he : now > token.expires_at
      · simp [DIR.execute, hv, hn, he]
      · by_cases hd : token.action_hash = sha256_dict action
        · simp [DIR.execute, hv, hn, he, hd]
        · simp [DIR.execute, hv, hn, he, hd]
  · have hv2 : token.verify pk = false := by
      revert hv
      cases token.verify pk <;> simp
    simp [DIR.execute, hv2]

/-- Witness for C5 on a rejecting path at a concrete input. -/
theorem C5_registry_witness :
    (DIR.execute demoDigest 10 "transfer" demoBadToken ∅ (Ed25519.publicKey 7)).2 = ∅ :=
  (C5_registry_effects demoDigest 10 "transfer" demoBadToken ∅
    (Ed25519.publicKey 7)).1 (by decide)

/-- Counterexample to C4 as stated: resubmitting the concrete valid token is
rejected with reason "Replay detected" (capitalised, as the source writes
it), not the claim's "replay detected". -/
theorem C4_replay_cex :
    (DIR.execute demoDigest 10 "transfer" demoSigned
      (DIR.execute demoDigest 10 "transfer" demoSigned ∅ (Ed25519.publicKey 7)).2
      (Ed25519.publicKey 7)).1.1 = false
    ∧ (DIR.execute demoDigest 10 "transfer" demoSigned
      (DIR.execute demoDigest 10 "transfer" demoSigned ∅ (Ed25519.publicKey 7)).2
      (Ed25519.publicKey 7)).1.2 = "Replay detected"
    ∧ (DIR.execute demoDigest 10 "transfer" demoSigned
      (DIR.execute demoDigest 10 "transfer" demoSigned ∅ (Ed25519.publicKey 7)).2
      (Ed25519.publicKey 7)).1.2 ≠ "replay detected" := by decide

/-- C4 (amended): submitting the same valid (correctly signed, unexpired at
both call times, action-matching, fresh-nonce) token twice against the same
registry: the first call commits, the second is rejected with reason
"Replay detected" (capitalised in the source), the registry grows by
exactly one element across the first call and is unchanged by the second. -/
theorem C4_replay_amended {Action : Type} (sha256_dict : Action → String)
    (k : Ed25519.PrivateKey) (t0 : AuthorityToken) (action : Action)
    (reg : Finset ℤ) (now1 now2 : ℤ)
    (h1 : ¬ now1 > (AuthorityToken.sign t0 k).expires_at)
    (h2 : ¬ now2 > (AuthorityToken.sign t0 k).expires_at)
    (hn : (AuthorityToken.sign t0 k).nonce ∉ reg)
    (ha : (AuthorityToken.sign t0 k).action_hash = sha256_dict action) :
    (DIR.execute sha256_dict now1 action (AuthorityToken.sign t0 k) reg
        (Ed25519.publicKey k)).1 = (true, "Execution committed")
    ∧ (DIR.execute sha256_dict now2 action (AuthorityToken.sign t0 k)
        (DIR.execute sha256_dict now1 action (AuthorityToken.sign t0 k) reg
          (Ed25519.publicKey k)).2 (Ed25519.publicKey k)).1
      = (false, "Replay detected")
    ∧ (DIR.execute sha256_dict now1 action (AuthorityToken.sign t0 k) reg
        (Ed25519.publicKey k)).2.card = reg.card + 1
    ∧ (DIR.execute sha256_dict now2 action (AuthorityToken.sign t0 k)
        (DIR.execute sha256_dict now1 action (AuthorityToken.sign t0 k) reg
          (Ed25519.publicKey k)).2 (Ed25519.publicKey k)).2
      = (DIR.execute sha256_dict now1 action (AuthorityToken.sign t0 k) reg
          (Ed25519.publicKey k)).2 := by
  have hv := AuthorityToken.verify_sign t0 k
  have e1 : DIR.execute sha256_dict now1 action (AuthorityToken.sign t0 k) reg
      (Ed25519.publicKey k)
      = ((true, "Execution committed"), insert (AuthorityToken.sign t0 k).nonce reg) := by
    simp [DIR.execute, hv, hn, h1, ha]
  have hmem : (AuthorityToken.sign t0 k).nonce
      ∈ insert (AuthorityToken.sign t0 k).nonce reg := Finset.mem_insert_self _ _
  have e2 : DIR.execute sha256_dict now2 action (AuthorityToken.sign t0 k)
      (insert (AuthorityToken.sign t0 k).nonce reg) (Ed25519.publicKey k)
      = ((false, "Replay detected"), insert (AuthorityToken.sign t0 k).nonce reg) := by
    simp [DIR.execute, hv, hmem]
  refine ⟨by rw [e1], ?_, ?_, ?_⟩
  · rw [e1]
    show (DIR.execute sha256_dict now2 action (AuthorityToken.sign t0 k)
      (insert (AuthorityToken.sign t0 k).nonce reg) (Ed25519.publicKey k)).1 = _
    rw [e2]
  · rw [e1]
    exact Finset.card_insert_of_not_mem hn
  · rw [e1]
    show (DIR.execute sha256_dict now2 action (AuthorityToken.sign t0 k)
      (insert (AuthorityToken.sign t0 k).nonce reg) (Ed25519.publicKey k)).2 = _
    rw [e2]

/-- Witness for C4 (amended) at the concrete demonstration token. -/
theorem C4_replay_witness :
    (DIR.execute demoDigest 10 "transfer" demoSigned ∅ (Ed25519.publicKey 7)).1
      = (true, "Execution committed")
    ∧ (DIR.execute demoDigest 10 "transfer" demoSigned
        (DIR.execute demoDigest 10 "transfer" demoSigned ∅ (Ed25519.publicKey 7)).2
        (Ed25519.publicKey 7)).1 = (false, "Replay detected")
    ∧ (DIR.execute demoDigest 10 "transfer" demoSigned ∅ (Ed25519.publicKey 7)).2.card
      = Finset.card (∅ : Finset ℤ) + 1
    ∧ (DIR.execute demoDigest 10 "transfer" demoSigned
        (DIR.execute demoDigest 10 "transfer" demoSigned ∅ (Ed25519.publicKey 7)).2
        (Ed25519.publicKey 7)).2
      = (DIR.execute demoDigest 10 "transfer" demoSigned ∅ (Ed25519.publicKey 7)).2 :=
  C4_replay_amended demoDigest 7 demoToken "transfer" ∅ 10 10
    (by decide) (by decide) (by decide) (by decide)

/-- Counterexample to C2 as stated: altering the stored timestamp field of
entry 0 of a 2-entry built chain is a genuine alteration, yet verify still
returns true, because verify only compares stored previous_hash against
stored hash and never recomputes digests. -/
theorem C2_tamper_cex :
    ReceiptChain.verify demoChain2 = true
    ∧ ReceiptChain.setTimestamp demoChain2 0 999 ≠ demoChain2
    ∧ ReceiptChain.verify (ReceiptChain.setTimestamp demoChain2 0 999) = true := by
  decide

/-- C2 (amended): a chain built by N sequential appends verifies true.
Altering the stored hash of entry i to a different value is detected iff
entry i is not the last: for i+1 < N the first break is at the link between
entries i and i+1, while altering the last entry's hash leaves verify true
with no break found.  Altering the stored previous_hash of entry i to a
different value is detected iff i ≥ 1 — the first break is then at the link
between entries i-1 and i — while altering entry 0's previous_hash leaves
verify true with no break found.  Altering the timestamp or record field of
any entry is never detected, since verify does not recompute digests. -/
theorem C2_tamper_amended {Rec : Type} (D : ℚ → Rec → String → String)
    (inputs : List (ℚ × Rec)) (c : List (ChainEntry Rec))
    (hc : c = ReceiptChain.build D inputs) :
    ReceiptChain.verify c = true
    ∧ (∀ (i : ℕ) (hi1 : i + 1 < c.length) (h2 : String),
        h2 ≠ (c.get ⟨i, by omega⟩).hash →
        ReceiptChain.firstBreak (ReceiptChain.setHash c i h2) = some (i + 1)
        ∧ ReceiptChain.verify (ReceiptChain.setHash c i h2) = false)
    ∧ (∀ (i : ℕ) (hi : i < c.length), 0 < i → ∀ p2 : String,
        p2 ≠ (c.get ⟨i, hi⟩).previous_hash →
        ReceiptChain.firstBreak (ReceiptChain.setPrevHash c i p2) = some i
        ∧ ReceiptChain.verify (ReceiptChain.setPrevHash c i p2) = false)
    ∧ (∀ (i : ℕ) (h2 : String), i + 1 = c.length →
        ReceiptChain.verify (ReceiptChain.setHash c i h2) = true
        ∧ ReceiptChain.firstBreak (ReceiptChain.setHash c i h2) = none)
    ∧ (∀ p2 : String,
        ReceiptChain.verify (ReceiptChain.setPrevHash c 0 p2) = true
        ∧ ReceiptChain.firstBreak (ReceiptChain.setPrevHash c 0 p2) = none)
    ∧ (∀ (i : ℕ) (ts : ℚ),
        ReceiptChain.verify (ReceiptChain.setTimestamp c i ts) = true)
    ∧ (∀ (i : ℕ) (r : Rec),
        ReceiptChain.verify (ReceiptChain.setRecord c i r) = true) := by
  subst hc
  have hch := ReceiptChain.chain'_build D inputs
  refine ⟨(ReceiptChain.verify_iff_chain' _).mpr hch, ?_, ?_, ?_, ?_, ?_, ?_⟩
  · intro i hi1 h2 hne
    exact ReceiptChain.setHash_break _ hch i hi1 h2 hne
  · intro i hi h0 p2 hne
    exact ReceiptChain.setPrevHash_break _ hch i hi h0 p2 hne
  · intro i h2 hlast
    have hv : ReceiptChain.verify
        (ReceiptChain.setHash (ReceiptChain.build D inputs) i h2) = true :=
      ReceiptChain.verify_tamper_last _ i _ (fun _ => rfl) (by omega) hch
    exact ⟨hv, (ReceiptChain.firstBreak_eq_none_iff _).mpr hv⟩
  · intro p2
    have hv : ReceiptChain.verify
        (ReceiptChain.setPrevHash (ReceiptChain.build D inputs) 0 p2) = true :=
      ReceiptChain.verify_tamper_head _ _ (fun _ => rfl) hch
    exact ⟨hv, (ReceiptChain.firstBreak_eq_none_iff _).mpr hv⟩
  · intro i ts
    exact ReceiptChain.verify_tamper_preserve _ i _ (fun _ => ⟨rfl, rfl⟩) hch
  · intro i r
    exact ReceiptChain.verify_tamper_preserve _ i _ (fun _ => ⟨rfl, rfl⟩) hch

/-- Witness for C2 (amended): on the 3-entry demonstration chain, altering
the hash of entry 0 is first detected at the link between entries 0 and 1,
while altering the last entry's hash or entry 0's previous_hash goes
undetected. -/
theorem C2_tamper_witness :
    (ReceiptChain.firstBreak (ReceiptChain.setHash demoChain3 0 "EVIL") = some 1
      ∧ ReceiptChain.verify (ReceiptChain.setHash demoChain3 0 "EVIL") = false)
    ∧ ReceiptChain.verify (ReceiptChain.setHash demoChain3 2 "EVIL") = true
    ∧ ReceiptChain.verify (ReceiptChain.setPrevHash demoChain3 0 "EVIL") = true := by
  have h := C2_tamper_amended demoChainDigest [(0, 10), (1, 20), (2, 30)] demoChain3 rfl
  exact ⟨h.2.1 0 (by decide) "EVIL" (by decide),
    (h.2.2.2.1 2 "EVIL" (by decide)).1, (h.2.2.2.2.1 "EVIL").1⟩

end ID9
